import Mathlib

/-!
Verification development for the `mobx-document` library: a normalized,
reactive client-side cache built from a `Database` (identity-keyed store of
`Document`s), a `Document` (single-entity fetch controller), an `Endpoint`
(collection/query fetch controller), and the pure `combinedFetchStatus`
combinator.

The embedding is shallow.  JavaScript plain objects used for parameters are
modelled as association lists with `Int` values (`FlatObj`); metadata objects,
whose values may themselves be objects (object spread can nest them), are
modelled as association lists of `JVal` (`JObj`).  Object spread
`\x7b...a, ...b\x7d` is `mergeFlat` / `mergeJ`: keys of `a` keep their positions
(values overridden by `b` where present), and keys of `b` not present in `a`
are appended in order, exactly as in JavaScript.  `objectEquals` from the
external `ytil` package is structural (key-pointwise) equality of objects,
modelled on flat objects by `objEquals`.

Promises are modelled by identity: each issued fetch gets a fresh numeric
promise id drawn from a `nextPid` counter in the state, and completion
handlers receive the id of the promise that completed, mirroring the
`promise !== this.fetchPromise` staleness checks of the source.  The abstract
`performFetch` is external; the model counts its invocations in
`performCount` and the response delivered to a completion handler is an
explicit argument.  Errors (JavaScript `Error` instances) are modelled as
`Nat` labels compared by identity.
-/

-- #region Object model

/-- A flat JavaScript object with integer values (used for params). -/
abbrev FlatObj := List (String × Int)

/-- Property lookup on a flat object (first binding wins, as in JS). -/
def lookupF (k : String) (o : FlatObj) : Option Int :=
  (o.find? (fun kv => kv.1 = k)).map (·.2)

/-- Object spread of two flat objects, JS semantics of `\x7b...a, ...b\x7d`. -/
def mergeFlat (a b : FlatObj) : FlatObj :=
  a.map (fun kv =>
    match lookupF kv.1 b with
    | some v => (kv.1, v)
    | none => kv)
  ++ b.filter (fun kv => (lookupF kv.1 a).isNone)

/-- Structural (key-pointwise) object equality, as `objectEquals` of `ytil`. -/
def objEquals (a b : FlatObj) : Bool :=
  a.all (fun kv => lookupF kv.1 b = some kv.2) &&
  b.all (fun kv => lookupF kv.1 a = some kv.2)

/-- A JSON-like value: a number or a nested object (enough to express the
values appearing in metadata objects, including objects stored as values). -/
inductive JVal : Type where
  | num (n : Int)
  | obj (fields : List (String × JVal))

/-- A JavaScript object with `JVal` values (used for metadata). -/
abbrev JObj := List (String × JVal)

/-- Property lookup on a metadata object. -/
def lookupJ (k : String) (o : JObj) : Option JVal :=
  (o.find? (fun kv => kv.1 = k)).map (·.2)

/-- Object spread of two metadata objects, JS semantics of `\x7b...a, ...b\x7d`. -/
def mergeJ (a b : JObj) : JObj :=
  a.map (fun kv =>
    match lookupJ kv.1 b with
    | some v => (kv.1, v)
    | none => kv)
  ++ b.filter (fun kv => (lookupJ kv.1 a).isNone)

-- #endregion

-- #region FetchStatus and responses

/-- `FetchStatus = 'idle' | 'fetching' | 'done' | Error` (types.ts). -/
inductive FetchStatus : Type where
  | idle
  | fetching
  | done
  | error (e : Nat)
deriving DecidableEq

/-- Whether a status is an `Error` instance (`s instanceof Error`). -/
def FetchStatus.isError : FetchStatus → Bool
  | .error _ => true
  | _ => false

/-- `DocumentFetchResponse<T | null, M>`: either `{data, meta?}` or
`{error}` (types.ts); `data` may be `null`, `meta` may be absent. -/
inductive DocResponse (T : Type) : Type where
  | success (data : Option T) (meta : Option JObj)
  | error (e : Nat)

/-- The `fetch` option of `SetParamsOptions` (types.ts). -/
inductive FetchPolicy : Type where
  | always
  | refetch
  | never
deriving DecidableEq

-- #endregion

-- #region Document

/-- The observable state of a `Document<T, ID, P, M>` (Document.ts), with
`P` fixed to `FlatObj` and `M` to `JObj`.  `fetchPromise` holds the identity
of the in-flight promise, `nextPid` is the allocator for fresh promise
identities, and `performCount` counts invocations of the abstract
`performFetch`. -/
structure DocState (T ID : Type) : Type where
  id : ID
  data : Option T
  meta : Option JObj
  defaultParams : FlatObj
  params : FlatObj
  fetchStatus : FetchStatus
  fetchPromise : Option Nat
  nextPid : Nat
  performCount : Nat

variable {T ID : Type}

/-- `Document.set(data, meta?, replaceMeta = false)`.  The `meta` argument is
three-valued (`Option (Option JObj)`): not provided, provided `null`, or
provided a value; spreading `null` adds no keys. -/
def docSet (d : Option T) (meta : Option (Option JObj)) (replaceMeta : Bool)
    (s : DocState T ID) : DocState T ID :=
  let s1 : DocState T ID := {s with data := d}
  let s2 : DocState T ID :=
    match meta with
    | none => s1
    | some m =>
      match s1.meta, replaceMeta with
      | some cur, false => {s1 with meta := some (mergeJ cur (m.getD []))}
      | _, _ => {s1 with meta := m}
  if d.isSome then {s2 with fetchStatus := .done} else s2

/-- `Document.setMeta(meta)`. -/
def docSetMeta (m : JObj) (s : DocState T ID) : DocState T ID :=
  {s with meta := some m}

/-- `Document.mergeMeta(meta)`: the source assigns
`\x7b...this.meta, meta\x7d` — spreading the previous meta and then adding a
property literally named `meta` holding the given partial object. -/
def docMergeMeta (m : JObj) (s : DocState T ID) : DocState T ID :=
  match s.meta with
  | none => s
  | some cur => {s with meta := some (mergeJ cur [("meta", JVal.obj m)])}

/-- `Document.updateMeta(meta)`: assigns `\x7b...this.meta, ...meta\x7d`. -/
def docUpdateMeta (m : JObj) (s : DocState T ID) : DocState T ID :=
  match s.meta with
  | none => s
  | some cur => {s with meta := some (mergeJ cur m)}

/-- `Document.clear()`. -/
def docClear (s : DocState T ID) : DocState T ID :=
  {s with data := none, meta := none, fetchStatus := .idle}

/-- `Document.fetch(options = {force})`: coalesces onto the in-flight promise
unless forced; otherwise marks `fetching`, invokes the performer, and records
the fresh promise.  Returns the updated state and the identity of the promise
whose completion the caller observes. -/
def docFetch (force : Bool) (s : DocState T ID) : DocState T ID × Nat :=
  match s.fetchPromise with
  | some p =>
    if force then
      ({s with fetchStatus := .fetching, fetchPromise := some s.nextPid,
               nextPid := s.nextPid + 1, performCount := s.performCount + 1},
       s.nextPid)
    else
      (s, p)
  | none =>
    ({s with fetchStatus := .fetching, fetchPromise := some s.nextPid,
             nextPid := s.nextPid + 1, performCount := s.performCount + 1},
     s.nextPid)

/-- `Document.setParams(params, options)`. -/
def docSetParams (q : FlatObj) (policy : FetchPolicy) (force : Bool)
    (s : DocState T ID) : DocState T ID :=
  let paramsBefore := s.params
  let s1 : DocState T ID := {s with params := mergeFlat s.params q}
  let firstFetch := s.fetchStatus = .idle
  if ¬force ∧ ¬firstFetch ∧ objEquals paramsBefore s1.params then s1
  else
    let shouldFetch :=
      policy = .always ∨ (policy = .refetch ∧ s1.fetchStatus = .done)
    if shouldFetch then (docFetch false s1).1 else s1

/-- The success continuation of `Document.fetch` (`onFetchSuccess`), keyed by
the identity of the promise whose completion is being delivered. -/
def docOnFetchSuccess (pid : Nat) (resp : Option (DocResponse T))
    (s : DocState T ID) : DocState T ID :=
  if s.fetchPromise ≠ some pid then s
  else
    let s1 : DocState T ID := {s with fetchPromise := none}
    match resp with
    | none => s1
    | some (.error e) => {s1 with fetchStatus := .error e}
    | some (.success d m) =>
      docSet d (m.map some) false {s1 with fetchStatus := .done}

/-- The failure continuation of `Document.fetch` (`onFetchError`). -/
def docOnFetchError (pid : Nat) (e : Nat) (s : DocState T ID) :
    DocState T ID :=
  if s.fetchPromise ≠ some pid then s
  else {s with fetchPromise := none, fetchStatus := .error e}

/-- `Document.performOptimisticUpdate(spec)`.  `updateResult` is the outcome
of `spec.update()`: `.ok r` when the promise resolves with response `r`,
`.error e` when it rejects.  Returns the final document state together with
the call outcome (`.ok b` when it resolves with `b`, `.error e` when the
rejection propagates). -/
def performOptimisticUpdate (prepare : Option (T → T))
    (updateResult : Except Nat (DocResponse T)) (s : DocState T ID) :
    DocState T ID × Except Nat Bool :=
  let original := s.data
  let s1 : DocState T ID :=
    match prepare, original with
    | some f, some d => docSet (some (f d)) none false s
    | _, _ => s
  match updateResult with
  | .error e => (s1, .error e)
  | .ok (.error _) => (docSet original none false s1, .ok false)
  | .ok (.success d m) => (docSet d (m.map some) false s1, .ok true)

-- #endregion

-- #region Database

/-- The injected configuration of a `Database<D>` (types.ts
`DatabaseOptions`): identity extraction and the two document factories. -/
structure DbConfig (T ID : Type) : Type where
  getID : T → ID
  getDocument : T → DocState T ID
  emptyDocument : ID → DocState T ID

/-- The identity-to-document map of a `Database<D>`, as an association list
in insertion order (JS `Map` semantics). -/
abbrev DbState (T ID : Type) := List (ID × DocState T ID)

/-- `Map.get`: the document registered under `id`, if any. -/
def dbLookup [DecidableEq ID] (id : ID) : DbState T ID → Option (DocState T ID)
  | [] => none
  | (k, d) :: rest => if k = id then some d else dbLookup id rest

/-- `Map.set`: rebind `id` in place, or append a new binding. -/
def dbInsert [DecidableEq ID] (id : ID) (doc : DocState T ID) : DbState T ID → DbState T ID
  | [] => [(id, doc)]
  | (k, d) :: rest =>
    if k = id then (id, doc) :: rest else (k, d) :: dbInsert id doc rest

/-- `Database.store(item)`: look up or create the owning document, register
it under `getID(item)`, and `set` the item into it.  Returns the document
(the shared instance, after mutation) and the updated database. -/
def dbStore [DecidableEq ID] (cfg : DbConfig T ID) (item : T) (db : DbState T ID) :
    DocState T ID × DbState T ID :=
  let id := cfg.getID item
  let doc0 := (dbLookup id db).getD (cfg.getDocument item)
  let doc1 := docSet (some item) none false doc0
  (doc1, dbInsert id doc1 db)

/-- `Database.get(id)`: the registered document's data, or `null` when the
document is missing or empty (the two cases are conflated by the source). -/
def dbGet [DecidableEq ID] (id : ID) (db : DbState T ID) : Option T :=
  (dbLookup id db).bind (·.data)

-- #endregion

-- #region Endpoint

/-- An element of a collection fetch response's `data` array: either a plain
item or the embedded `{data, meta}` per-item shape recognized structurally by
`Endpoint.append`. -/
inductive EpItem (T : Type) : Type where
  | plain (t : T)
  | withMeta (t : T) (m : JObj)

/-- `CollectionFetchResponse<T, M>`: `{data, meta?}` or `{error}`. -/
inductive CollResponse (T : Type) : Type where
  | success (data : List (EpItem T)) (meta : Option JObj)
  | error (e : Nat)

/-- The `clear` option of `Endpoint.setParams`: a boolean or a comparator of
the previous and current params. -/
inductive ClearOpt : Type where
  | flag (b : Bool)
  | comp (f : FlatObj → FlatObj → Bool)

/-- The observable state of an `Endpoint<D, P, M>`, with `P` fixed to
`FlatObj` and `M` to `JObj`.  `optionsMeta` is the configured
`options.meta`; promise identities and `performCount` are as in
`DocState`. -/
structure EpState (ID : Type) : Type where
  defaultParams : FlatObj
  params : FlatObj
  ids : List ID
  meta : Option JObj
  optionsMeta : Option JObj
  fetchStatus : FetchStatus
  lastFetchPromise : Option Nat
  lastFetchParams : Option FlatObj
  nextPid : Nat
  performCount : Nat

/-- `Endpoint.clear()`. -/
def epClear (ep : EpState ID) : EpState ID :=
  {ep with ids := [], meta := ep.optionsMeta, fetchStatus := .idle}

/-- `Endpoint.fetch(options)`: reuses the in-flight request when the current
params structurally equal the in-flight request's params; otherwise marks
`fetching`, invokes the performer, and records the fresh promise together
with a copy of the current params. -/
def epFetch (ep : EpState ID) : EpState ID × Nat :=
  match ep.lastFetchPromise, ep.lastFetchParams with
  | some p, some lp =>
    if objEquals ep.params lp then
      (ep, p)
    else
      ({ep with fetchStatus := .fetching,
                lastFetchParams := some ep.params,
                lastFetchPromise := some ep.nextPid,
                nextPid := ep.nextPid + 1,
                performCount := ep.performCount + 1},
       ep.nextPid)
  | _, _ =>
    ({ep with fetchStatus := .fetching,
              lastFetchParams := some ep.params,
              lastFetchPromise := some ep.nextPid,
              nextPid := ep.nextPid + 1,
              performCount := ep.performCount + 1},
     ep.nextPid)

/-- `Endpoint.setParams(params, options)`. -/
def epSetParams (q : FlatObj) (policy : FetchPolicy) (clear : ClearOpt)
    (force : Bool) (ep : EpState ID) : EpState ID :=
  let paramsBefore := ep.params
  let ep1 : EpState ID := {ep with params := mergeFlat ep.params q}
  let firstFetch := ep.fetchStatus = .idle
  if ¬force ∧ ¬firstFetch ∧ objEquals paramsBefore ep1.params then ep1
  else
    let shouldClear :=
      match clear with
      | .flag b => b
      | .comp f => f paramsBefore ep1.params
    let ep2 := if shouldClear then epClear ep1 else ep1
    let shouldFetch :=
      policy = .always ∨ (policy = .refetch ∧ ep2.fetchStatus = .done)
    if shouldFetch then (epFetch ep2).1 else ep2

/-- `Endpoint.add(item, meta?, replaceMeta = false)`: stores the item into
the database, merges or replaces the owning document's meta, and appends the
stored document's identity to `ids` unconditionally. -/
def epAdd [DecidableEq ID] (cfg : DbConfig T ID) (item : T) (meta : Option JObj)
    (replaceMeta : Bool) (st : EpState ID × DbState T ID) :
    EpState ID × DbState T ID :=
  let (doc, db1) := dbStore cfg item st.2
  let doc2 :=
    match meta with
    | none => doc
    | some m =>
      match doc.meta, replaceMeta with
      | some _, false => docMergeMeta m doc
      | _, _ => docSetMeta m doc
  let db2 := dbInsert (cfg.getID item) doc2 db1
  ({st.1 with ids := st.1.ids ++ [doc.id]}, db2)

/-- `Endpoint.append(data, meta?)`: routes each item through `add` (with the
item-level meta when the embedded shape is present), then updates the
collection meta when one was provided. -/
def epAppend [DecidableEq ID] (cfg : DbConfig T ID) (items : List (EpItem T))
    (meta : Option JObj) (st : EpState ID × DbState T ID) :
    EpState ID × DbState T ID :=
  let st1 := items.foldl (fun st item =>
    match item with
    | .plain t => epAdd cfg t none false st
    | .withMeta t m => epAdd cfg t (some m) false st) st
  match meta with
  | some m => ({st1.1 with meta := some m}, st1.2)
  | none => st1

/-- `Endpoint.replace(data, meta?)`. -/
def epReplace [DecidableEq ID] (cfg : DbConfig T ID) (items : List (EpItem T))
    (meta : Option JObj) (st : EpState ID × DbState T ID) :
    EpState ID × DbState T ID :=
  let st1 := epAppend cfg items meta ({st.1 with ids := []}, st.2)
  ({st1.1 with fetchStatus := .done}, st1.2)

/-- `Endpoint.appendID(id, {ignoreIfExists = true})`. -/
def epAppendID [DecidableEq ID] (id : ID) (ignoreIfExists : Bool) (ep : EpState ID) :
    EpState ID :=
  if ignoreIfExists ∧ id ∈ ep.ids then ep
  else {ep with ids := ep.ids ++ [id]}

/-- `Endpoint.appendIDs(ids, options)`. -/
def epAppendIDs [DecidableEq ID] (ids : List ID) (ignoreIfExists : Bool) (ep : EpState ID) :
    EpState ID :=
  ids.foldl (fun ep id => epAppendID id ignoreIfExists ep) ep

/-- `Endpoint.updateMeta(meta)`: like `Document.mergeMeta`, the source
assigns `\x7b...this.meta, meta\x7d`, adding a property literally named
`meta`. -/
def epUpdateMeta (m : JObj) (ep : EpState ID) : EpState ID :=
  match ep.meta with
  | none => ep
  | some cur => {ep with meta := some (mergeJ cur [("meta", JVal.obj m)])}

/-- The success continuation of `Endpoint.fetch` (`onFetchSuccess`), keyed by
promise identity; `append` is the `CollectionFetchOptions.append` flag the
original `fetch` call closed over. -/
def epOnFetchSuccess [DecidableEq ID] (cfg : DbConfig T ID) (append : Bool) (pid : Nat)
    (resp : Option (CollResponse T)) (st : EpState ID × DbState T ID) :
    EpState ID × DbState T ID :=
  if st.1.lastFetchPromise ≠ some pid then st
  else
    let ep1 : EpState ID :=
      {st.1 with lastFetchPromise := none, lastFetchParams := none}
    match resp with
    | none => (ep1, st.2)
    | some (.error e) =>
      ({ep1 with fetchStatus := .error e, meta := ep1.optionsMeta}, st.2)
    | some (.success data meta) =>
      if append then
        epAppend cfg data meta ({ep1 with fetchStatus := .done}, st.2)
      else
        epReplace cfg data meta ({ep1 with fetchStatus := .done}, st.2)

/-- The failure continuation of `Endpoint.fetch` (`onFetchError`). -/
def epOnFetchError (pid : Nat) (e : Nat) (ep : EpState ID) : EpState ID :=
  if ep.lastFetchPromise ≠ some pid then ep
  else {ep with lastFetchPromise := none, lastFetchParams := none,
                fetchStatus := .error e}

-- #endregion

-- #region Status combinator

/-- `combinedFetchStatus(...statuses)` (util/combinedFetchStatus.ts). -/
def combinedFetchStatus (statuses : List FetchStatus) : FetchStatus :=
  if statuses.all (fun s => s = .idle) then .idle
  else if statuses.any (fun s => s = .fetching) then .fetching
  else
    match statuses.filter FetchStatus.isError with
    | e :: _ => e
    | [] =>
      if statuses.any (fun s => s = .idle) ∧ statuses.any (fun s => s = .done)
      then .fetching
      else .done

-- #endregion

-- #region Lemmas about the status combinator

theorem isError_ne_idle {s : FetchStatus} (h : s.isError = true) :
    s ≠ .idle := by
  cases s <;> simp_all [FetchStatus.isError]

theorem combined_idle_iff (l : List FetchStatus) :
    combinedFetchStatus l = .idle ↔ ∀ s ∈ l, s = .idle := by
  unfold combinedFetchStatus
  split
  · rename_i h
    simp only [List.all_eq_true, decide_eq_true_eq] at h
    exact iff_of_true rfl h
  · rename_i h
    simp only [List.all_eq_true, decide_eq_true_eq] at h
    constructor
    · intro hc
      exfalso
      revert hc
      split
      · intro hc; exact FetchStatus.noConfusion hc
      · split
        · rename_i e rest herr
          intro hc
          have hmem : e ∈ l.filter FetchStatus.isError := by
            rw [herr]; exact List.mem_cons_self _ _
          exact isError_ne_idle (List.mem_filter.mp hmem).2 hc
        · split
          · intro hc; exact FetchStatus.noConfusion hc
          · intro hc; exact FetchStatus.noConfusion hc
    · intro hall
      exact absurd hall h

theorem combined_fetching_of_mem (l : List FetchStatus)
    (h : FetchStatus.fetching ∈ l) : combinedFetchStatus l = .fetching := by
  unfold combinedFetchStatus
  split
  · rename_i hall
    simp only [List.all_eq_true, decide_eq_true_eq] at hall
    exact absurd (hall _ h) (by decide)
  · split
    · rfl
    · rename_i hany
      simp only [List.any_eq_true, decide_eq_true_eq] at hany
      exact absurd ⟨_, h, rfl⟩ hany

theorem combined_first_error (l : List FetchStatus) (e : FetchStatus)
    (rest : List FetchStatus) (hf : FetchStatus.fetching ∉ l)
    (herr : l.filter FetchStatus.isError = e :: rest) :
    combinedFetchStatus l = e := by
  have hmem : e ∈ l.filter FetchStatus.isError := by
    rw [herr]; exact List.mem_cons_self _ _
  have he := List.mem_filter.mp hmem
  unfold combinedFetchStatus
  split
  · rename_i hall
    simp only [List.all_eq_true, decide_eq_true_eq] at hall
    exact absurd (hall _ he.1) (isError_ne_idle he.2)
  · split
    · rename_i hany
      simp only [List.any_eq_true, decide_eq_true_eq] at hany
      obtain ⟨s, hs, hs2⟩ := hany
      exact absurd (hs2 ▸ hs) hf
    · split
      · rename_i e' rest' heq
        rw [herr] at heq
        exact (List.cons.injEq _ _ _ _ ▸ heq).1.symm
      · rename_i heq
        rw [herr] at heq
        exact List.noConfusion heq

theorem combined_mix_fetching (l : List FetchStatus)
    (hf : FetchStatus.fetching ∉ l)
    (herr : l.filter FetchStatus.isError = [])
    (hi : FetchStatus.idle ∈ l) (hd : FetchStatus.done ∈ l) :
    combinedFetchStatus l = .fetching := by
  unfold combinedFetchStatus
  split
  · rename_i hall
    simp only [List.all_eq_true, decide_eq_true_eq] at hall
    exact absurd (hall _ hd) (by decide)
  · split
    · rfl
    · split
      · rename_i e rest heq
        rw [herr] at heq
        exact absurd heq.symm (List.noConfusion)
      · split
        · rfl
        · rename_i hmix
          exfalso
          apply hmix
          constructor
          · simp only [List.any_eq_true, decide_eq_true_eq]
            exact ⟨_, hi, rfl⟩
          · simp only [List.any_eq_true, decide_eq_true_eq]
            exact ⟨_, hd, rfl⟩

theorem combined_done (l : List FetchStatus)
    (hall : ¬∀ s ∈ l, s = FetchStatus.idle)
    (hf : FetchStatus.fetching ∉ l)
    (herr : l.filter FetchStatus.isError = [])
    (hmix : ¬(FetchStatus.idle ∈ l ∧ FetchStatus.done ∈ l)) :
    combinedFetchStatus l = .done := by
  unfold combinedFetchStatus
  split
  · rename_i h
    simp only [List.all_eq_true, decide_eq_true_eq] at h
    exact absurd h hall
  · split
    · rename_i hany
      simp only [List.any_eq_true, decide_eq_true_eq] at hany
      obtain ⟨s, hs, hs2⟩ := hany
      exact absurd (hs2 ▸ hs) hf
    · split
      · rename_i e rest heq
        rw [herr] at heq
        exact absurd heq.symm (List.noConfusion)
      · split
        · rename_i h
          obtain ⟨h1, h2⟩ := h
          simp only [List.any_eq_true, decide_eq_true_eq] at h1 h2
          exfalso
          apply hmix
          obtain ⟨s1, hs1, e1⟩ := h1
          obtain ⟨s2, hs2, e2⟩ := h2
          exact ⟨e1 ▸ hs1, e2 ▸ hs2⟩
        · rfl

-- #endregion

/-- Claim C4: `combinedFetchStatus(...states)` returns `'idle'` iff all
inputs are `'idle'`; otherwise `'fetching'` if any input is `'fetching'`;
otherwise the first error in input order if any input is an error; otherwise
`'fetching'` if the inputs are a mix of `'idle'` and `'done'`; otherwise
`'done'`; together with the six concrete evaluations listed by the claim. -/
theorem c4_combinedFetchStatus :
    (∀ l : List FetchStatus,
      combinedFetchStatus l = .idle ↔ ∀ s ∈ l, s = .idle)
  ∧ (∀ l : List FetchStatus, FetchStatus.fetching ∈ l →
      combinedFetchStatus l = .fetching)
  ∧ (∀ (l : List FetchStatus) (e : FetchStatus) (rest : List FetchStatus),
      FetchStatus.fetching ∉ l →
      l.filter FetchStatus.isError = e :: rest →
      combinedFetchStatus l = e)
  ∧ (∀ l : List FetchStatus, FetchStatus.fetching ∉ l →
      l.filter FetchStatus.isError = [] →
      FetchStatus.idle ∈ l → FetchStatus.done ∈ l →
      combinedFetchStatus l = .fetching)
  ∧ (∀ l : List FetchStatus, (¬∀ s ∈ l, s = FetchStatus.idle) →
      FetchStatus.fetching ∉ l →
      l.filter FetchStatus.isError = [] →
      ¬(FetchStatus.idle ∈ l ∧ FetchStatus.done ∈ l) →
      combinedFetchStatus l = .done)
  ∧ combinedFetchStatus [.idle, .idle] = .idle
  ∧ combinedFetchStatus [.idle, .fetching] = .fetching
  ∧ combinedFetchStatus [.idle, .done] = .fetching
  ∧ combinedFetchStatus [.done, .done] = .done
  ∧ combinedFetchStatus [.done, .error 3] = .error 3
  ∧ combinedFetchStatus [.error 1, .error 2] = .error 1 := by
  refine ⟨combined_idle_iff, combined_fetching_of_mem, combined_first_error,
    combined_mix_fetching, combined_done, ?_, ?_, ?_, ?_, ?_, ?_⟩ <;> decide

/-- Witness for C4: the conditional clauses instantiated at concrete inputs
discharging every hypothesis. -/
theorem c4_combinedFetchStatus_witness :
    combinedFetchStatus [.idle, .idle] = .idle
  ∧ combinedFetchStatus [.done, .fetching] = .fetching
  ∧ combinedFetchStatus [.done, .error 5, .error 6] = .error 5
  ∧ combinedFetchStatus [.idle, .done] = .fetching
  ∧ combinedFetchStatus [.done, .done] = .done := by
  refine ⟨?_, ?_, ?_, ?_, ?_⟩
  · exact (c4_combinedFetchStatus.1 [.idle, .idle]).mpr (by decide)
  · exact c4_combinedFetchStatus.2.1 [.done, .fetching] (by decide)
  · exact c4_combinedFetchStatus.2.2.1 [.done, .error 5, .error 6] (.error 5)
      [.error 6] (by decide) (by decide)
  · exact c4_combinedFetchStatus.2.2.2.1 [.idle, .done] (by decide) (by decide)
      (by decide) (by decide)
  · exact c4_combinedFetchStatus.2.2.2.2.1 [.done, .done] (by decide)
      (by decide) (by decide) (by decide)

-- #region Lemmas about fetch continuations and the staleness guard

theorem docSet_fetchPromise (d : Option T) (m : Option (Option JObj))
    (r : Bool) (s : DocState T ID) :
    (docSet d m r s).fetchPromise = s.fetchPromise := by
  unfold docSet
  dsimp only
  split <;> (try split) <;> (try split) <;> rfl

theorem docSet_data (d : Option T) (m : Option (Option JObj)) (r : Bool)
    (s : DocState T ID) : (docSet d m r s).data = d := by
  unfold docSet
  dsimp only
  split <;> (try split) <;> (try split) <;> rfl

theorem docSet_performCount (d : Option T) (m : Option (Option JObj))
    (r : Bool) (s : DocState T ID) :
    (docSet d m r s).performCount = s.performCount := by
  unfold docSet
  dsimp only
  split <;> (try split) <;> (try split) <;> rfl

theorem docOnFetchSuccess_stale (pid : Nat) (resp : Option (DocResponse T))
    (s : DocState T ID) (h : s.fetchPromise ≠ some pid) :
    docOnFetchSuccess pid resp s = s := by
  unfold docOnFetchSuccess
  simp [h]

theorem docOnFetchError_stale (pid e : Nat) (s : DocState T ID)
    (h : s.fetchPromise ≠ some pid) : docOnFetchError pid e s = s := by
  unfold docOnFetchError
  simp [h]

theorem docOnFetchSuccess_clears (pid : Nat) (resp : Option (DocResponse T))
    (s : DocState T ID) (h : s.fetchPromise = some pid) :
    (docOnFetchSuccess pid resp s).fetchPromise = none := by
  unfold docOnFetchSuccess
  simp only [h, ne_eq, not_true_eq_false, if_false, ite_false]
  match resp with
  | none => rfl
  | some (.error e) => rfl
  | some (.success d m) => exact docSet_fetchPromise _ _ _ _

theorem docFetch_forced (s : DocState T ID) :
    (docFetch true s).1.fetchPromise = some (docFetch true s).2 := by
  unfold docFetch
  match h : s.fetchPromise with
  | some p => rfl
  | none => rfl

theorem docFetch_fresh (s : DocState T ID) (h : s.fetchPromise = none) :
    docFetch false s =
      ({s with fetchStatus := .fetching, fetchPromise := some s.nextPid,
               nextPid := s.nextPid + 1, performCount := s.performCount + 1},
       s.nextPid) := by
  unfold docFetch
  rw [h]

theorem epOnFetchSuccess_stale [DecidableEq ID] (cfg : DbConfig T ID)
    (append : Bool) (pid : Nat) (resp : Option (CollResponse T))
    (st : EpState ID × DbState T ID) (h : st.1.lastFetchPromise ≠ some pid) :
    epOnFetchSuccess cfg append pid resp st = st := by
  unfold epOnFetchSuccess
  simp [h]

theorem epOnFetchError_stale (pid e : Nat) (ep : EpState ID)
    (h : ep.lastFetchPromise ≠ some pid) : epOnFetchError pid e ep = ep := by
  unfold epOnFetchError
  simp [h]

theorem epAdd_fst [DecidableEq ID] (cfg : DbConfig T ID) (item : T)
    (meta : Option JObj) (rm : Bool) (st : EpState ID × DbState T ID) :
    (epAdd cfg item meta rm st).1 =
      {st.1 with ids := st.1.ids ++ [(dbStore cfg item st.2).1.id]} := by
  unfold epAdd
  rfl

theorem epAppend_fst_lastFetchPromise [DecidableEq ID] (cfg : DbConfig T ID)
    (items : List (EpItem T)) (meta : Option JObj)
    (st : EpState ID × DbState T ID) :
    (epAppend cfg items meta st).1.lastFetchPromise =
      st.1.lastFetchPromise := by
  unfold epAppend
  have hfold : ∀ (st : EpState ID × DbState T ID),
      (items.foldl (fun st item =>
        match item with
        | .plain t => epAdd cfg t none false st
        | .withMeta t m => epAdd cfg t (some m) false st) st).1.lastFetchPromise
      = st.1.lastFetchPromise := by
    induction items with
    | nil => intro st; rfl
    | cons hd tl ih =>
      intro st
      match hd with
      | .plain t =>
        rw [List.foldl_cons, ih]
        rw [epAdd_fst]
      | .withMeta t m =>
        rw [List.foldl_cons, ih]
        rw [epAdd_fst]
  match meta with
  | some m => exact hfold st
  | none => exact hfold st

theorem epReplace_fst_lastFetchPromise [DecidableEq ID] (cfg : DbConfig T ID)
    (items : List (EpItem T)) (meta : Option JObj)
    (st : EpState ID × DbState T ID) :
    (epReplace cfg items meta st).1.lastFetchPromise =
      st.1.lastFetchPromise := by
  unfold epReplace
  dsimp only
  rw [epAppend_fst_lastFetchPromise]

theorem epOnFetchSuccess_clears [DecidableEq ID] (cfg : DbConfig T ID)
    (append : Bool) (pid : Nat) (resp : Option (CollResponse T))
    (st : EpState ID × DbState T ID) (h : st.1.lastFetchPromise = some pid) :
    (epOnFetchSuccess cfg append pid resp st).1.lastFetchPromise = none := by
  unfold epOnFetchSuccess
  simp only [h, ne_eq, not_true_eq_false, if_false, ite_false]
  match resp with
  | none => rfl
  | some (.error e) => rfl
  | some (.success data meta) =>
    cases append <;>
      simp [epAppend_fst_lastFetchPromise, epReplace_fst_lastFetchPromise]

theorem epFetch_fresh (ep : EpState ID) (h : ep.lastFetchPromise = none) :
    epFetch ep =
      ({ep with fetchStatus := .fetching,
                lastFetchParams := some ep.params,
                lastFetchPromise := some ep.nextPid,
                nextPid := ep.nextPid + 1,
                performCount := ep.performCount + 1},
       ep.nextPid) := by
  unfold epFetch
  rw [h]

-- #endregion

-- #region More lemmas for params-keyed coalescing

theorem objEquals_symm (a b : FlatObj) : objEquals a b = objEquals b a := by
  unfold objEquals
  exact Bool.and_comm _ _

theorem epSetParams_never_noclear (q : FlatObj) (ep : EpState ID)
    (hq : objEquals ep.params (mergeFlat ep.params q) = false) :
    epSetParams q .never (.flag false) false ep =
      {ep with params := mergeFlat ep.params q} := by
  unfold epSetParams
  simp [hq]

theorem epFetch_params_changed (ep : EpState ID) (p : Nat) (lp : FlatObj)
    (h1 : ep.lastFetchPromise = some p) (h2 : ep.lastFetchParams = some lp)
    (h3 : objEquals ep.params lp = false) :
    epFetch ep =
      ({ep with fetchStatus := .fetching,
                lastFetchParams := some ep.params,
                lastFetchPromise := some ep.nextPid,
                nextPid := ep.nextPid + 1,
                performCount := ep.performCount + 1},
       ep.nextPid) := by
  unfold epFetch
  rw [h1, h2]
  simp [h3]

-- #endregion

/-- Claim C1: for every Document or Endpoint, a superseded (stale) fetch's
completion — success or failure — never mutates state: the continuations are
keyed by promise identity and return immediately when the completing promise
is not the currently tracked one.  In particular (last two conjuncts),
issuing fetch A, then fetch B before A resolves (forced for a Document;
after a parameter change for an Endpoint), then resolving A after B has
resolved leaves B's resulting state intact. -/
theorem c1_staleness_guard :
    (∀ (s : DocState Int Nat) (pid : Nat) (resp : Option (DocResponse Int)),
      s.fetchPromise ≠ some pid → docOnFetchSuccess pid resp s = s)
  ∧ (∀ (s : DocState Int Nat) (pid e : Nat),
      s.fetchPromise ≠ some pid → docOnFetchError pid e s = s)
  ∧ (∀ (cfg : DbConfig Int Nat) (append : Bool) (pid : Nat)
      (resp : Option (CollResponse Int)) (st : EpState Nat × DbState Int Nat),
      st.1.lastFetchPromise ≠ some pid →
      epOnFetchSuccess cfg append pid resp st = st)
  ∧ (∀ (ep : EpState Nat) (pid e : Nat),
      ep.lastFetchPromise ≠ some pid → epOnFetchError pid e ep = ep)
  ∧ (∀ (s0 sB rA1 rB1 : DocState Int Nat) (pidA pidB : Nat)
      (respA respB : Option (DocResponse Int)) (eA : Nat),
      s0.fetchPromise = none →
      rA1 = (docFetch false s0).1 → pidA = (docFetch false s0).2 →
      rB1 = (docFetch true rA1).1 → pidB = (docFetch true rA1).2 →
      sB = docOnFetchSuccess pidB respB rB1 →
      docOnFetchSuccess pidA respA sB = sB ∧ docOnFetchError pidA eA sB = sB)
  ∧ (∀ (ep0 ep2 rA1 rB1 : EpState Nat) (db : DbState Int Nat)
      (cfg : DbConfig Int Nat) (append : Bool) (q : FlatObj) (pidA pidB : Nat)
      (respA respB : Option (CollResponse Int)) (eA : Nat)
      (stB : EpState Nat × DbState Int Nat),
      ep0.lastFetchPromise = none →
      objEquals ep0.params (mergeFlat ep0.params q) = false →
      rA1 = (epFetch ep0).1 → pidA = (epFetch ep0).2 →
      ep2 = epSetParams q .never (.flag false) false rA1 →
      rB1 = (epFetch ep2).1 → pidB = (epFetch ep2).2 →
      stB = epOnFetchSuccess cfg append pidB respB (rB1, db) →
      epOnFetchSuccess cfg append pidA respA stB = stB
      ∧ epOnFetchError pidA eA stB.1 = stB.1) := by
  refine ⟨fun s pid resp h => docOnFetchSuccess_stale pid resp s h,
    fun s pid e h => docOnFetchError_stale pid e s h,
    fun cfg append pid resp st h => epOnFetchSuccess_stale cfg append pid resp st h,
    fun ep pid e h => epOnFetchError_stale pid e ep h, ?_, ?_⟩
  · intro s0 sB rA1 rB1 pidA pidB respA respB eA h0 hA1 hpA hB1 hpB hsB
    subst hA1 hpA hB1 hpB hsB
    have hBp : (docFetch true (docFetch false s0).1).1.fetchPromise =
        some (docFetch true (docFetch false s0).1).2 := docFetch_forced _
    have hclear := docOnFetchSuccess_clears
      (docFetch true (docFetch false s0).1).2 respB
      (docFetch true (docFetch false s0).1).1 hBp
    constructor
    · exact docOnFetchSuccess_stale _ respA _ (by rw [hclear]; simp)
    · exact docOnFetchError_stale _ eA _ (by rw [hclear]; simp)
  · intro ep0 ep2 rA1 rB1 db cfg append q pidA pidB respA respB eA stB
      h0 hq hA1 hpA h2 hB1 hpB hstB
    have hAeq := epFetch_fresh ep0 h0
    have hrA_params : rA1.params = ep0.params := by rw [hA1, hAeq]
    have hrA_lp : rA1.lastFetchPromise = some ep0.nextPid := by rw [hA1, hAeq]
    have hrA_lfp : rA1.lastFetchParams = some ep0.params := by rw [hA1, hAeq]
    have h2v : ep2 = {rA1 with params := mergeFlat rA1.params q} := by
      rw [h2]
      exact epSetParams_never_noclear q rA1 (by rw [hrA_params]; exact hq)
    have hep2_params : ep2.params = mergeFlat ep0.params q := by
      rw [h2v]
      dsimp only
      rw [hrA_params]
    have hB := epFetch_params_changed ep2 ep0.nextPid ep0.params
      (by rw [h2v]; exact hrA_lp) (by rw [h2v]; exact hrA_lfp)
      (by rw [hep2_params, objEquals_symm]; exact hq)
    have hBp : rB1.lastFetchPromise = some pidB := by
      rw [hB1, hpB, hB]
    have hclear : stB.1.lastFetchPromise = none := by
      rw [hstB]
      exact epOnFetchSuccess_clears cfg append pidB respB (rB1, db) hBp
    constructor
    · exact epOnFetchSuccess_stale cfg append pidA respA stB
        (by rw [hclear]; simp)
    · exact epOnFetchError_stale pidA eA stB.1 (by rw [hclear]; simp)

-- #region Concrete states used by witnesses

/-- A concrete document with a pending fetch (promise identity 5). -/
def wDocPending : DocState Int Nat :=
  ⟨0, none, none, [], [], .fetching, some 5, 6, 1⟩

/-- A concrete idle document with params `{a: 1}`. -/
def wDocIdle : DocState Int Nat :=
  ⟨0, none, none, [], [("a", 1)], .idle, none, 0, 0⟩

/-- A concrete endpoint with a pending fetch (promise identity 5). -/
def wEpPending : EpState Nat :=
  ⟨[], [("a", 1)], [], none, none, .fetching, some 5, some [("a", 1)], 6, 1⟩

/-- A concrete idle endpoint with params `{a: 1}`. -/
def wEpIdle : EpState Nat :=
  ⟨[], [("a", 1)], [], none, none, .idle, none, none, 0, 0⟩

/-- A concrete database configuration: identities are the items' values. -/
def wCfg : DbConfig Int Nat :=
  ⟨fun t => t.toNat,
   fun t => ⟨t.toNat, none, none, [], [], .idle, none, 0, 0⟩,
   fun i => ⟨i, none, none, [], [], .idle, none, 0, 0⟩⟩

-- #endregion

/-- Witness for C1: every conjunct of the staleness guard applied at concrete
inputs, each hypothesis discharged by evaluation. -/
theorem c1_staleness_guard_witness :
    docOnFetchSuccess 3 none wDocPending = wDocPending
  ∧ docOnFetchError 3 7 wDocPending = wDocPending
  ∧ epOnFetchSuccess wCfg false 3 none (wEpPending, []) = (wEpPending, [])
  ∧ epOnFetchError 3 7 wEpPending = wEpPending
  ∧ (docOnFetchSuccess (docFetch false wDocIdle).2
       (some (.success (some 9) none))
       (docOnFetchSuccess (docFetch true (docFetch false wDocIdle).1).2
         (some (.success (some 4) none))
         (docFetch true (docFetch false wDocIdle).1).1)
     = docOnFetchSuccess (docFetch true (docFetch false wDocIdle).1).2
         (some (.success (some 4) none))
         (docFetch true (docFetch false wDocIdle).1).1)
  ∧ (epOnFetchSuccess wCfg false (epFetch wEpIdle).2 (some (.success [] none))
       (epOnFetchSuccess wCfg false
         (epFetch (epSetParams [("b", 2)] .never (.flag false) false
           (epFetch wEpIdle).1)).2
         (some (.success [] none))
         ((epFetch (epSetParams [("b", 2)] .never (.flag false) false
           (epFetch wEpIdle).1)).1, []))
     = epOnFetchSuccess wCfg false
         (epFetch (epSetParams [("b", 2)] .never (.flag false) false
           (epFetch wEpIdle).1)).2
         (some (.success [] none))
         ((epFetch (epSetParams [("b", 2)] .never (.flag false) false
           (epFetch wEpIdle).1)).1, [])) := by
  refine ⟨?_, ?_, ?_, ?_, ?_, ?_⟩
  · exact c1_staleness_guard.1 wDocPending 3 none (by decide)
  · exact c1_staleness_guard.2.1 wDocPending 3 7 (by decide)
  · exact c1_staleness_guard.2.2.1 wCfg false 3 none (wEpPending, []) (by decide)
  · exact c1_staleness_guard.2.2.2.1 wEpPending 3 7 (by decide)
  · exact (c1_staleness_guard.2.2.2.2.1 wDocIdle _ _ _ _ _
      (some (.success (some 9) none)) (some (.success (some 4) none)) 7
      rfl rfl rfl rfl rfl rfl).1
  · exact (c1_staleness_guard.2.2.2.2.2 wEpIdle _ _ _ [] wCfg false
      [("b", 2)] _ _ (some (.success [] none)) (some (.success [] none)) 7 _
      rfl (by decide) rfl rfl rfl rfl rfl rfl).1

/-- A concrete document with no explicit params and no default params. -/
def wDocEmpty : DocState Int Nat :=
  ⟨0, none, none, [], [], .idle, none, 0, 0⟩

/-- A concrete document holding data `1`. -/
def wDocOne : DocState Int Nat :=
  ⟨0, some 1, none, [], [], .done, none, 0, 0⟩

/-- Counterexample for C2: a document with no explicit params, no default
params, and no pending fetch.  `Document.fetch` silently proceeds — it marks
the document `fetching` and invokes the performer — rather than failing with
a thrown precondition error (the source contains no such check). -/
theorem c2_fetch_silently_proceeds :
    wDocEmpty.params = [] ∧ wDocEmpty.defaultParams = [] ∧
    (docFetch false wDocEmpty).1.fetchStatus = .fetching ∧
    (docFetch false wDocEmpty).1.performCount = 1 := by
  exact ⟨rfl, rfl, rfl, rfl⟩

/-- Claim C2 as amended: `Document.fetch()`, when no fetch is pending or
`force` is set, proceeds unconditionally — it sets `fetchStatus` to
`'fetching'` and invokes the performer — performing no check at all on
explicit or default params and throwing nothing. -/
theorem c2_fetch_no_precondition (s : DocState Int Nat) (force : Bool)
    (h : force = true ∨ s.fetchPromise = none) :
    docFetch force s =
      ({s with fetchStatus := .fetching, fetchPromise := some s.nextPid,
               nextPid := s.nextPid + 1, performCount := s.performCount + 1},
       s.nextPid) := by
  unfold docFetch
  rcases h with h | h
  · subst h
    match hp : s.fetchPromise with
    | some p => rfl
    | none => rfl
  · rw [h]

/-- Witness for C2's amended claim: applied to a document with empty params
and empty default params. -/
theorem c2_fetch_no_precondition_witness :
    docFetch false wDocEmpty =
      (⟨0, none, none, [], [], .fetching, some 0, 1, 1⟩, 0) := by
  exact c2_fetch_no_precondition wDocEmpty false (Or.inr rfl)

/-- Counterexample for C3: data is `1`, `prepare` is `n => n + 1`, and
`update()` rejects (with error 7).  After the call, `data` is `2` — the
provisional prepared value, not the original `1` — and the call does not
resolve with `false`: the rejection propagates.  The source awaits
`spec.update()` without a catch, so the rollback branch never runs. -/
theorem c3_rejection_counterexample :
    (performOptimisticUpdate (some (fun n => n + 1)) (.error 7)
      wDocOne).1.data = some 2
  ∧ (performOptimisticUpdate (some (fun n => n + 1)) (.error 7)
      wDocOne).2 = .error 7 := by
  exact ⟨rfl, rfl⟩

/-- Claim C3 as amended: for a document with data `d` and a prepare
transform, an `update()` that resolves with an error response rolls data
back to `d` and the call returns `false`; an `update()` that resolves with a
success response commits the response's data and returns `true`; an
`update()` that rejects propagates the rejection and leaves the provisional
prepared value `f d` in place (no rollback). -/
theorem c3_optimistic_update (s : DocState Int Nat) (d : Int)
    (f : Int → Int) (e : Nat) (hd : s.data = some d) :
    ((performOptimisticUpdate (some f) (.ok (.error e)) s).1.data = some d
      ∧ (performOptimisticUpdate (some f) (.ok (.error e)) s).2 = .ok false)
  ∧ (∀ (rd : Option Int) (rm : Option JObj),
      (performOptimisticUpdate (some f) (.ok (.success rd rm)) s).1.data = rd
      ∧ (performOptimisticUpdate (some f) (.ok (.success rd rm)) s).2
          = .ok true)
  ∧ ((performOptimisticUpdate (some f) (.error e) s).1.data = some (f d)
      ∧ (performOptimisticUpdate (some f) (.error e) s).2 = .error e) := by
  unfold performOptimisticUpdate
  rw [hd]
  refine ⟨⟨?_, rfl⟩, fun rd rm => ⟨?_, rfl⟩, ⟨?_, rfl⟩⟩
  · exact docSet_data _ _ _ _
  · exact docSet_data _ _ _ _
  · exact docSet_data _ _ _ _

/-- Witness for C3's amended claim: all three branches at data `1` and
`prepare = n => n + 1`. -/
theorem c3_optimistic_update_witness :
    ((performOptimisticUpdate (some (fun n => n + 1)) (.ok (.error 9))
        wDocOne).1.data = some 1)
  ∧ ((performOptimisticUpdate (some (fun n => n + 1))
        (.ok (.success (some 42) none)) wDocOne).2 = .ok true)
  ∧ ((performOptimisticUpdate (some (fun n => n + 1)) (.error 9)
        wDocOne).1.data = some 2) := by
  refine ⟨?_, ?_, ?_⟩
  · exact (c3_optimistic_update wDocOne 1 (fun n => n + 1) 9 rfl).1.1
  · exact ((c3_optimistic_update wDocOne 1 (fun n => n + 1) 9
      rfl).2.1 (some 42) none).2
  · exact (c3_optimistic_update wDocOne 1 (fun n => n + 1) 9 rfl).2.2.1

-- #region Coalescing lemmas

theorem docFetch_coalesce (s : DocState T ID) (p : Nat)
    (h : s.fetchPromise = some p) : docFetch false s = (s, p) := by
  unfold docFetch
  rw [h]
  rfl

theorem epFetch_coalesce (ep : EpState ID) (p : Nat) (lp : FlatObj)
    (h1 : ep.lastFetchPromise = some p) (h2 : ep.lastFetchParams = some lp)
    (h3 : objEquals ep.params lp = true) : epFetch ep = (ep, p) := by
  unfold epFetch
  rw [h1, h2]
  simp [h3]

theorem lookupF_of_mem_nodup {a : FlatObj} {kv : String × Int}
    (hnd : (a.map Prod.fst).Nodup) (hmem : kv ∈ a) :
    lookupF kv.1 a = some kv.2 := by
  induction a with
  | nil => cases hmem
  | cons hd tl ih =>
    rw [List.map_cons, List.nodup_cons] at hnd
    rcases List.mem_cons.mp hmem with h | h
    · subst h
      unfold lookupF
      rw [List.find?_cons_of_pos _ (by simp)]
      rfl
    · have hne : hd.1 ≠ kv.1 := by
        intro he
        exact hnd.1 (he ▸ List.mem_map_of_mem Prod.fst h)
      unfold lookupF
      rw [List.find?_cons_of_neg _ (by simp [hne])]
      exact ih hnd.2 h

theorem objEquals_refl_of_nodup (a : FlatObj)
    (hnd : (a.map Prod.fst).Nodup) : objEquals a a = true := by
  unfold objEquals
  rw [Bool.and_self]
  rw [List.all_eq_true]
  intro kv hmem
  simp [lookupF_of_mem_nodup hnd hmem]

-- #endregion

/-- Claim C5: request coalescing.  `Document.fetch()` without `force` while
a fetch is in flight returns the in-flight promise and leaves the state
(including the performer-invocation count) unchanged.  `Endpoint.fetch()`
while a fetch with structurally identical params is in flight reuses the
in-flight request.  Consequently two back-to-back `fetch()` calls on an
endpoint with unchanged (duplicate-free) params cause exactly one performer
invocation and hand both callers the same promise. -/
theorem c5_request_coalescing :
    (∀ (s : DocState Int Nat) (p : Nat),
      s.fetchPromise = some p → docFetch false s = (s, p))
  ∧ (∀ (ep : EpState Nat) (p : Nat) (lp : FlatObj),
      ep.lastFetchPromise = some p → ep.lastFetchParams = some lp →
      objEquals ep.params lp = true → epFetch ep = (ep, p))
  ∧ (∀ ep : EpState Nat,
      ep.lastFetchPromise = none → (ep.params.map Prod.fst).Nodup →
      epFetch (epFetch ep).1 = ((epFetch ep).1, (epFetch ep).2)
      ∧ (epFetch ep).1.performCount = ep.performCount + 1) := by
  refine ⟨docFetch_coalesce, epFetch_coalesce, ?_⟩
  intro ep h hnd
  have hAeq := epFetch_fresh ep h
  constructor
  · refine epFetch_coalesce (epFetch ep).1 (epFetch ep).2 ep.params ?_ ?_ ?_
    · rw [hAeq]
    · rw [hAeq]
    · rw [hAeq]
      exact objEquals_refl_of_nodup ep.params hnd
  · rw [hAeq]

/-- Witness for C5: the three conjuncts at concrete states. -/
theorem c5_request_coalescing_witness :
    docFetch false wDocPending = (wDocPending, 5)
  ∧ epFetch wEpPending = (wEpPending, 5)
  ∧ epFetch (epFetch wEpIdle).1 = ((epFetch wEpIdle).1, (epFetch wEpIdle).2)
  := by
  refine ⟨?_, ?_, ?_⟩
  · exact c5_request_coalescing.1 wDocPending 5 rfl
  · exact c5_request_coalescing.2.1 wEpPending 5 [("a", 1)] rfl rfl (by decide)
  · exact (c5_request_coalescing.2.2 wEpIdle rfl (by decide)).1

/-- Claim C10: a fetch performer resolving with `null`/`undefined` clears
the pending-promise record — so a later `fetch()` invokes the performer
afresh — but leaves `fetchStatus` at `'fetching'` and data, meta, and ids
unchanged, for both Document and Endpoint. -/
theorem c10_null_response :
    (∀ (s : DocState Int Nat) (pid : Nat),
      s.fetchPromise = some pid → s.fetchStatus = .fetching →
      docOnFetchSuccess pid none s = {s with fetchPromise := none}
      ∧ (docOnFetchSuccess pid none s).fetchStatus = .fetching
      ∧ (docFetch false (docOnFetchSuccess pid none s)).1.performCount
          = s.performCount + 1)
  ∧ (∀ (cfg : DbConfig Int Nat) (append : Bool)
      (st : EpState Nat × DbState Int Nat) (pid : Nat),
      st.1.lastFetchPromise = some pid → st.1.fetchStatus = .fetching →
      epOnFetchSuccess cfg append pid none st
        = ({st.1 with lastFetchPromise := none, lastFetchParams := none},
           st.2)
      ∧ (epOnFetchSuccess cfg append pid none st).1.fetchStatus = .fetching
      ∧ (epFetch (epOnFetchSuccess cfg append pid none st).1).1.performCount
          = st.1.performCount + 1) := by
  constructor
  · intro s pid h hs
    have h1 : docOnFetchSuccess pid none s = {s with fetchPromise := none} := by
      unfold docOnFetchSuccess
      simp [h]
    refine ⟨h1, ?_, ?_⟩
    · rw [h1]
      exact hs
    · rw [h1]
      rfl
  · intro cfg append st pid h hs
    have h1 : epOnFetchSuccess cfg append pid none st
        = ({st.1 with lastFetchPromise := none, lastFetchParams := none},
           st.2) := by
      unfold epOnFetchSuccess
      simp [h]
    refine ⟨h1, ?_, ?_⟩
    · rw [h1]
      exact hs
    · rw [h1]
      rfl

/-- Witness for C10: both conjuncts at concrete pending states. -/
theorem c10_null_response_witness :
    docOnFetchSuccess 5 none wDocPending = {wDocPending with fetchPromise := none}
  ∧ epOnFetchSuccess wCfg false 5 none (wEpPending, [])
      = ({wEpPending with lastFetchPromise := none, lastFetchParams := none},
         []) := by
  constructor
  · exact (c10_null_response.1 wDocPending 5 rfl rfl).1
  · exact (c10_null_response.2 wCfg false (wEpPending, []) 5 rfl rfl).1

-- #region Lemmas for setParams idempotence

theorem mergeFlat_eq_self (a q : FlatObj) (hnd : (a.map Prod.fst).Nodup)
    (h : objEquals a (mergeFlat a q) = true) : mergeFlat a q = a := by
  unfold objEquals at h
  rw [Bool.and_eq_true, List.all_eq_true, List.all_eq_true] at h
  obtain ⟨h1, h2⟩ := h
  simp only [decide_eq_true_eq] at h1 h2
  have hfilt : q.filter (fun kv => (lookupF kv.1 a).isNone) = [] := by
    rw [List.filter_eq_nil_iff]
    intro kv hkv hisnone
    have hmem : kv ∈ mergeFlat a q := by
      unfold mergeFlat
      exact List.mem_append_right _ (List.mem_filter.mpr ⟨hkv, hisnone⟩)
    have hl := h2 kv hmem
    rw [hl] at hisnone
    simp at hisnone
  have hmap : a.map (fun kv =>
      match lookupF kv.1 q with
      | some v => (kv.1, v)
      | none => kv) = a := by
    conv_rhs => rw [← List.map_id a]
    apply List.map_congr_left
    intro kv hkv
    match hq : lookupF kv.1 q with
    | none =>
      simp only [hq]
      rfl
    | some v =>
      have hmem : (kv.1, v) ∈ mergeFlat a q := by
        unfold mergeFlat
        apply List.mem_append_left
        apply List.mem_map.mpr
        exact ⟨kv, hkv, by rw [hq]⟩
      have hv := h2 (kv.1, v) hmem
      have hkv2 := lookupF_of_mem_nodup hnd hkv
      rw [hkv2] at hv
      have hveq : v = kv.2 := by
        injection hv with hv
        exact hv.symm
      simp only [hq, hveq]
      rfl
  unfold mergeFlat
  rw [hfilt, hmap, List.append_nil]

theorem docSetParams_noop (q : FlatObj) (policy : FetchPolicy)
    (s : DocState T ID) (hs : s.fetchStatus ≠ .idle)
    (hnd : (s.params.map Prod.fst).Nodup)
    (h : objEquals s.params (mergeFlat s.params q) = true) :
    docSetParams q policy false s = s := by
  unfold docSetParams
  dsimp only
  rw [mergeFlat_eq_self s.params q hnd h]
  split
  · rfl
  · rename_i hcond
    exact absurd ⟨by simp, hs, objEquals_refl_of_nodup s.params hnd⟩ hcond

theorem epSetParams_noop (q : FlatObj) (policy : FetchPolicy)
    (clear : ClearOpt) (ep : EpState ID) (hs : ep.fetchStatus ≠ .idle)
    (hnd : (ep.params.map Prod.fst).Nodup)
    (h : objEquals ep.params (mergeFlat ep.params q) = true) :
    epSetParams q policy clear false ep = ep := by
  unfold epSetParams
  dsimp only
  rw [mergeFlat_eq_self ep.params q hnd h]
  split
  · rfl
  · rename_i hcond
    exact absurd ⟨by simp, hs, objEquals_refl_of_nodup ep.params hnd⟩ hcond

-- #endregion

/-- Claim C6: for a Document or Endpoint whose fetchStatus is not `'idle'`,
any sequence of `setParams` calls with `force=false` whose merged params are
structurally equal to the previous params is a no-op: the state — in
particular data, meta, ids, fetchStatus, and the performer-invocation count —
is left entirely unchanged, and no fetch is triggered.  (JS objects have
duplicate-free keys, reflected by the `Nodup` hypothesis.) -/
theorem c6_setParams_idempotent :
    (∀ (s : DocState Int Nat) (qs : List FlatObj) (policy : FetchPolicy),
      s.fetchStatus ≠ .idle → (s.params.map Prod.fst).Nodup →
      (∀ q ∈ qs, objEquals s.params (mergeFlat s.params q) = true) →
      qs.foldl (fun st q => docSetParams q policy false st) s = s)
  ∧ (∀ (ep : EpState Nat) (qs : List FlatObj) (policy : FetchPolicy)
      (clear : ClearOpt),
      ep.fetchStatus ≠ .idle → (ep.params.map Prod.fst).Nodup →
      (∀ q ∈ qs, objEquals ep.params (mergeFlat ep.params q) = true) →
      qs.foldl (fun st q => epSetParams q policy clear false st) ep = ep) := by
  constructor
  · intro s qs policy hs hnd
    induction qs with
    | nil => intro _; rfl
    | cons hd tl ih =>
      intro hall
      rw [List.foldl_cons,
        docSetParams_noop hd policy s hs hnd (hall hd (List.mem_cons_self _ _))]
      exact ih (fun q hq => hall q (List.mem_cons_of_mem _ hq))
  · intro ep qs policy clear hs hnd
    induction qs with
    | nil => intro _; rfl
    | cons hd tl ih =>
      intro hall
      rw [List.foldl_cons,
        epSetParams_noop hd policy clear ep hs hnd
          (hall hd (List.mem_cons_self _ _))]
      exact ih (fun q hq => hall q (List.mem_cons_of_mem _ hq))

/-- A concrete done document with params `{a: 1}`. -/
def wDocDone : DocState Int Nat :=
  ⟨0, some 1, none, [], [("a", 1)], .done, none, 0, 0⟩

/-- Witness for C6: repeated `setParams({a:1})` and `setParams({})` on a
done document and a fetching endpoint with params `{a:1}`. -/
theorem c6_setParams_idempotent_witness :
    [[("a", 1)], []].foldl
      (fun st q => docSetParams q .refetch false st) wDocDone = wDocDone
  ∧ [[("a", 1)], []].foldl
      (fun st q => epSetParams q .refetch (.flag false) false st) wEpPending
      = wEpPending := by
  constructor
  · exact c6_setParams_idempotent.1 wDocDone [[("a", 1)], []] .refetch
      (by decide) (by decide) (by decide)
  · exact c6_setParams_idempotent.2 wEpPending [[("a", 1)], []] .refetch
      (.flag false) (by decide) (by decide) (by decide)

/-- A concrete document with data `1` and meta `{x: 1}`. -/
def wDocMeta : DocState Int Nat :=
  ⟨0, some 1, some [("x", .num 1)], [], [], .done, none, 0, 0⟩

/-- A concrete endpoint with meta `{x: 1}`. -/
def wEpMeta : EpState Nat :=
  ⟨[], [], [], some [("x", .num 1)], none, .done, none, none, 0, 0⟩

/-- Claim C7, evaluated on the code (documenting a code bug).  When meta is
absent, `mergeMeta`/`updateMeta` are no-ops (first three conjuncts), and
`Document.updateMeta` does shallow-merge correctly (fourth conjunct).  But
`Document.mergeMeta` — the source assigns `\x7b...this.meta, meta\x7d`
instead of `\x7b...this.meta, ...meta\x7d` — produces
`{x: 1, meta: {y: 2}}` rather than the shallow merge `{x: 1, y: 2}`: the
result gains a property literally named `meta` and none of the partial's
keys (fifth to seventh conjuncts).  `Endpoint.updateMeta` has the same slip
(last conjunct). -/
theorem c7_meta_merge_bug :
    docMergeMeta [("y", .num 2)] wDocOne = wDocOne
  ∧ docUpdateMeta [("y", .num 2)] wDocOne = wDocOne
  ∧ epUpdateMeta [("y", .num 2)] wEpIdle = wEpIdle
  ∧ (docUpdateMeta [("y", .num 2)] wDocMeta).meta
      = some [("x", .num 1), ("y", .num 2)]
  ∧ (docMergeMeta [("y", .num 2)] wDocMeta).meta
      = some [("x", .num 1), ("meta", .obj [("y", .num 2)])]
  ∧ ((docMergeMeta [("y", .num 2)] wDocMeta).meta.map (List.map Prod.fst))
      = some ["x", "meta"]
  ∧ ((docMergeMeta [("y", .num 2)] wDocMeta).meta.map (List.map Prod.fst))
      ≠ some ["x", "y"]
  ∧ (epUpdateMeta [("y", .num 2)] wEpMeta).meta
      = some [("x", .num 1), ("meta", .obj [("y", .num 2)])] := by
  refine ⟨rfl, rfl, rfl, rfl, rfl, rfl, ?_, rfl⟩
  intro hcontra
  have hc : (some ["x", "meta"] : Option (List String)) = some ["x", "y"] := by
    rw [← hcontra]
    exact rfl
  exact absurd hc (by decide)

-- #region Lemmas for append deduplication

theorem epAppendID_mem (ep : EpState ID) [DecidableEq ID] (id : ID)
    (h : id ∈ ep.ids) : epAppendID id true ep = ep := by
  unfold epAppendID
  simp [h]

theorem epAppendID_not_mem (ep : EpState ID) [DecidableEq ID] (id : ID)
    (h : id ∉ ep.ids) : epAppendID id true ep = {ep with ids := ep.ids ++ [id]} := by
  unfold epAppendID
  simp [h]

theorem epAppendIDs_all_mem (ep : EpState ID) [DecidableEq ID]
    (ids : List ID) (h : ∀ i ∈ ids, i ∈ ep.ids) :
    epAppendIDs ids true ep = ep := by
  unfold epAppendIDs
  induction ids with
  | nil => rfl
  | cons hd tl ih =>
    rw [List.foldl_cons, epAppendID_mem ep hd (h hd (List.mem_cons_self _ _))]
    exact ih (fun i hi => h i (List.mem_cons_of_mem _ hi))

theorem epAppend_fold_ids_length [DecidableEq ID] (cfg : DbConfig T ID)
    (items : List (EpItem T)) (st : EpState ID × DbState T ID) :
    (items.foldl (fun st item =>
      match item with
      | .plain t => epAdd cfg t none false st
      | .withMeta t m => epAdd cfg t (some m) false st) st).1.ids.length
    = st.1.ids.length + items.length := by
  induction items generalizing st with
  | nil => rfl
  | cons hd tl ih =>
    rw [List.foldl_cons]
    cases hd with
    | plain t =>
      rw [ih]
      rw [epAdd_fst]
      simp only [List.length_append, List.length_cons, List.length_nil]
      omega
    | withMeta t m =>
      rw [ih]
      rw [epAdd_fst]
      simp only [List.length_append, List.length_cons, List.length_nil]
      omega

theorem epAppend_ids_length [DecidableEq ID] (cfg : DbConfig T ID)
    (items : List (EpItem T)) (meta : Option JObj)
    (st : EpState ID × DbState T ID) :
    (epAppend cfg items meta st).1.ids.length
      = st.1.ids.length + items.length := by
  unfold epAppend
  match meta with
  | some m =>
    dsimp only
    rw [epAppend_fold_ids_length]
  | none =>
    dsimp only
    rw [epAppend_fold_ids_length]

-- #endregion

/-- Claim C8: deduplication asymmetry.  `appendID` (and `appendIDs`) with
the default `ignoreIfExists=true` leaves `ids` unchanged when the identity
is already present (and appends it when absent), while `add()` always
appends the stored document's identity even if present, and `append()`
routes every item through `add()`, growing `ids` by exactly the number of
items with no deduplication. -/
theorem c8_dedup_asymmetry :
    (∀ (ep : EpState Nat) (id : Nat), id ∈ ep.ids →
      epAppendID id true ep = ep)
  ∧ (∀ (ep : EpState Nat) (id : Nat), id ∉ ep.ids →
      epAppendID id true ep = {ep with ids := ep.ids ++ [id]})
  ∧ (∀ (ep : EpState Nat) (ids : List Nat), (∀ i ∈ ids, i ∈ ep.ids) →
      epAppendIDs ids true ep = ep)
  ∧ (∀ (cfg : DbConfig Int Nat) (item : Int) (meta : Option JObj) (rm : Bool)
      (st : EpState Nat × DbState Int Nat),
      (epAdd cfg item meta rm st).1.ids
        = st.1.ids ++ [(dbStore cfg item st.2).1.id])
  ∧ (∀ (cfg : DbConfig Int Nat) (items : List (EpItem Int))
      (meta : Option JObj) (st : EpState Nat × DbState Int Nat),
      (epAppend cfg items meta st).1.ids.length
        = st.1.ids.length + items.length) := by
  refine ⟨fun ep id h => epAppendID_mem ep id h,
    fun ep id h => epAppendID_not_mem ep id h,
    fun ep ids h => epAppendIDs_all_mem ep ids h,
    fun cfg item meta rm st => ?_,
    fun cfg items meta st => epAppend_ids_length cfg items meta st⟩
  rw [epAdd_fst]

/-- A concrete endpoint holding ids `[3, 4]`. -/
def wEpIds : EpState Nat :=
  ⟨[], [], [3, 4], none, none, .done, none, none, 0, 0⟩

/-- Witness for C8: dedup on present id, append on absent id, `appendIDs`
over present ids, and duplicate-allowing `add`/`append` on a concrete
endpoint. -/
theorem c8_dedup_asymmetry_witness :
    epAppendID 3 true wEpIds = wEpIds
  ∧ epAppendID 9 true wEpIds = {wEpIds with ids := [3, 4] ++ [9]}
  ∧ epAppendIDs [4, 3] true wEpIds = wEpIds
  ∧ (epAdd wCfg 3 none false (wEpIds, [])).1.ids
      = [3, 4] ++ [(dbStore wCfg 3 ([] : DbState Int Nat)).1.id]
  ∧ (epAppend wCfg [.plain 3, .plain 3] none (wEpIds, [])).1.ids.length = 4
  := by
  refine ⟨?_, ?_, ?_, ?_, ?_⟩
  · exact c8_dedup_asymmetry.1 wEpIds 3 (by decide)
  · exact c8_dedup_asymmetry.2.1 wEpIds 9 (by decide)
  · exact c8_dedup_asymmetry.2.2.1 wEpIds [4, 3] (by decide)
  · exact c8_dedup_asymmetry.2.2.2.1 wCfg 3 none false (wEpIds, [])
  · exact c8_dedup_asymmetry.2.2.2.2 wCfg [.plain 3, .plain 3] none
      (wEpIds, [])

-- #region Database lemmas

theorem dbLookup_dbInsert_self [DecidableEq ID] (id : ID)
    (doc : DocState T ID) (db : DbState T ID) :
    dbLookup id (dbInsert id doc db) = some doc := by
  induction db with
  | nil => simp [dbInsert, dbLookup]
  | cons hd tl ih =>
    by_cases hk : hd.1 = id
    · simp [dbInsert, dbLookup, hk]
    · simp [dbInsert, dbLookup, hk, ih]

theorem mem_keys_dbInsert [DecidableEq ID] (x id : ID)
    (doc : DocState T ID) (db : DbState T ID)
    (h : x ∈ (dbInsert id doc db).map Prod.fst) :
    x = id ∨ x ∈ db.map Prod.fst := by
  induction db with
  | nil =>
    simp [dbInsert] at h
    exact Or.inl h
  | cons hd tl ih =>
    by_cases hk : hd.1 = id
    · simp only [dbInsert, hk, if_true, List.map_cons, List.mem_cons] at h
      rcases h with h | h
      · exact Or.inl h
      · exact Or.inr (by rw [List.map_cons]; exact List.mem_cons_of_mem _ h)
    · simp only [dbInsert, hk, if_false, List.map_cons, List.mem_cons] at h
      rcases h with h | h
      · exact Or.inr (by rw [List.map_cons]; exact List.mem_cons.mpr (Or.inl h))
      · rcases ih h with h2 | h2
        · exact Or.inl h2
        · exact Or.inr (by rw [List.map_cons]; exact List.mem_cons_of_mem _ h2)

theorem dbInsert_keys_nodup [DecidableEq ID] (id : ID)
    (doc : DocState T ID) (db : DbState T ID)
    (h : (db.map Prod.fst).Nodup) :
    ((dbInsert id doc db).map Prod.fst).Nodup := by
  induction db with
  | nil => simp [dbInsert]
  | cons hd tl ih =>
    rw [List.map_cons, List.nodup_cons] at h
    by_cases hk : hd.1 = id
    · simp only [dbInsert, hk, if_true, List.map_cons, List.nodup_cons]
      exact ⟨hk ▸ h.1, h.2⟩
    · simp only [dbInsert, hk, if_false, List.map_cons, List.nodup_cons]
      refine ⟨?_, ih h.2⟩
      intro hmem
      rcases mem_keys_dbInsert hd.1 id doc tl hmem with h2 | h2
      · exact hk h2
      · exact h.1 h2

-- #endregion

/-- Claim C9: store round-trip and uniqueness.  `store(item)` followed by
`get(getID(item))` returns data equal to `item`; `store` upserts into the
document already registered under `getID(item)` when one exists (mutating it
via `set(item)`), otherwise registers the injected factory's document; and
storing preserves the at-most-one-document-per-identity invariant of the
map. -/
theorem c9_store_round_trip :
    (∀ (cfg : DbConfig Int Nat) (db : DbState Int Nat) (item : Int),
      dbGet (cfg.getID item) (dbStore cfg item db).2 = some item)
  ∧ (∀ (cfg : DbConfig Int Nat) (db : DbState Int Nat) (item : Int)
      (d : DocState Int Nat), dbLookup (cfg.getID item) db = some d →
      (dbStore cfg item db).1 = docSet (some item) none false d)
  ∧ (∀ (cfg : DbConfig Int Nat) (db : DbState Int Nat) (item : Int),
      dbLookup (cfg.getID item) db = none →
      (dbStore cfg item db).1
        = docSet (some item) none false (cfg.getDocument item))
  ∧ (∀ (cfg : DbConfig Int Nat) (db : DbState Int Nat) (item : Int),
      (db.map Prod.fst).Nodup →
      ((dbStore cfg item db).2.map Prod.fst).Nodup) := by
  refine ⟨?_, ?_, ?_, ?_⟩
  · intro cfg db item
    unfold dbGet dbStore
    dsimp only
    rw [dbLookup_dbInsert_self]
    simp [docSet_data]
  · intro cfg db item d h
    unfold dbStore
    dsimp only
    rw [h]
    rfl
  · intro cfg db item h
    unfold dbStore
    dsimp only
    rw [h]
    rfl
  · intro cfg db item h
    unfold dbStore
    dsimp only
    exact dbInsert_keys_nodup _ _ db h

/-- A concrete stored document registered under identity 5. -/
def wDoc5 : DocState Int Nat :=
  ⟨5, some 7, none, [], [], .done, none, 0, 0⟩

/-- Witness for C9: round-trip on the empty database, upsert into an
existing registration, creation from the factory, and key uniqueness, all
at concrete inputs. -/
theorem c9_store_round_trip_witness :
    dbGet (wCfg.getID 5) (dbStore wCfg 5 ([] : DbState Int Nat)).2 = some 5
  ∧ (dbStore wCfg 5 [(5, wDoc5)]).1 = docSet (some 5) none false wDoc5
  ∧ (dbStore wCfg 5 ([] : DbState Int Nat)).1
      = docSet (some 5) none false (wCfg.getDocument 5)
  ∧ ((dbStore wCfg 5 [(5, wDoc5)]).2.map Prod.fst).Nodup := by
  refine ⟨?_, ?_, ?_, ?_⟩
  · exact c9_store_round_trip.1 wCfg [] 5
  · exact c9_store_round_trip.2.1 wCfg [(5, wDoc5)] 5 wDoc5 rfl
  · exact c9_store_round_trip.2.2.1 wCfg [] 5 rfl
  · exact c9_store_round_trip.2.2.2 wCfg [(5, wDoc5)] 5 (by decide)
